import Mathlib

/-!
Shallow embedding of the dispatch core of send_daily_wweb.js:
catalog/contact loading, the per-contact send loop, the scheduled tick,
and a spec-modelled subscriber store for the unsubscribe handler that the
repository requires optionally but does not ship.
-/

set_option autoImplicit false

namespace Autopilot

/-- One entry of quotes_cloudinary.json: a record with text and image fields. -/
structure Quote where
  text : String
  image : String
deriving DecidableEq, Repr

/-- One entry of contacts.json: name and phone, either possibly absent. -/
structure Contact where
  name : Option String
  phone : Option String
deriving DecidableEq, Repr

/-- Result of reading and JSON-parsing a data file, as distinguished by
safeLoadQuotes/safeLoadContacts: the read can throw, the parse can throw,
the parse can yield a non-array, or an array of records is obtained. -/
inductive LoadResult (α : Type) where
  | fileError
  | parseError
  | notArray
  | array (items : List α)
deriving DecidableEq, Repr

/-- safeLoadQuotes: returns the parsed array, and the empty list on any
read error, parse error, or non-array value (lines 110-119). -/
def safeLoadQuotes : LoadResult Quote → List Quote
  | .array qs => qs
  | _ => []

/-- safeLoadContacts: same shape as safeLoadQuotes, for contacts.json. -/
def safeLoadContacts : LoadResult Contact → List Contact
  | .array cs => cs
  | _ => []

/-- The JS normalization on line 144: c.phone.replace of every non-digit
character by the empty string, keeping only the decimal digits. -/
def digitsOnly (s : String) : String :=
  String.mk (s.data.filter Char.isDigit)

/-- JS truthiness of the check on line 143, not c.phone: true when the
phone field is absent or the empty string. -/
def phoneMissing : Option String → Bool
  | none => true
  | some s => s == ""

/-- JS string-or on expressions such as c.name or phoneDigits: the left
operand unless it is absent or empty. -/
def jsOr : Option String → String → String
  | none, d => d
  | some s, d => if s == "" then d else s

/-- Result of one client.sendMessage call, as observed by the try/catch on
lines 142-151: normal return, or a thrown error with a message. -/
inductive SendResult where
  | ok
  | error (message : String)
deriving DecidableEq, Repr

/-- Observable actions of the send loop, in order: the skip log of line
143, the sendMessage call of line 147, the logs of lines 148 and 150.  A
pause constructor records any deliberate inter-send delay; the loop body
contains none, and the constructor exists so its absence can be stated. -/
inductive Event where
  | logSkipMissingPhone (c : Contact)
  | sendAttempt (chatId : String) (imageUrl : String) (caption : String)
  | logSent (label : String)
  | logSendFailed (label : String) (reason : String)
  | pause (ms : Nat)
deriving DecidableEq, Repr

/-- Per-recipient outcome of one loop iteration that reached the send. -/
inductive Outcome where
  | success (chatId : String)
  | failure (chatId : String) (reason : String)
deriving DecidableEq, Repr

/-- One iteration of the for-loop of lines 141-152, for contact c: skip
when the phone is missing (logged) or has no digits (silent); otherwise
build chatId from the digits and attempt the send exactly once, recording
a success or a caught failure. -/
def processContact (send : String → SendResult) (q : Quote) (c : Contact) :
    List Event × Option Outcome :=
  if phoneMissing c.phone then
    ([.logSkipMissingPhone c], none)
  else
    let phoneDigits := digitsOnly (c.phone.getD "")
    if phoneDigits == "" then
      ([], none)
    else
      let chatId := phoneDigits ++ "@c.us"
      match send chatId with
      | .ok =>
          ([.sendAttempt chatId q.image q.text, .logSent (jsOr c.name phoneDigits)],
           some (.success chatId))
      | .error msg =>
          ([.sendAttempt chatId q.image q.text,
            .logSendFailed (jsOr c.name (c.phone.getD "")) msg],
           some (.failure chatId msg))

/-- The whole for-loop of lines 141-152: iterate the contacts in listed
order, concatenating the event trace and collecting the outcomes. -/
def runContacts (send : String → SendResult) (q : Quote) :
    List Contact → List Event × List Outcome
  | [] => ([], [])
  | c :: cs =>
      let step := processContact send q c
      let rest := runContacts send q cs
      (step.1 ++ rest.1, step.2.toList ++ rest.2)

/-- Result of sendQuoteToAll: the early return of lines 135-138 when the
quote list is empty, or a run over the contacts with the selected quote. -/
inductive DispatchOutcome where
  | noQuotes
  | ran (q : Quote) (events : List Event) (outcomes : List Outcome)
deriving DecidableEq, Repr

/-- sendQuoteToAll (lines 132-153): load quotes and contacts, bail out
when no quotes are available, otherwise pick quotes at index mod length
and run the send loop. -/
def sendQuoteToAll (send : String → SendResult) (index : Nat)
    (quotesLoad : LoadResult Quote) (contactsLoad : LoadResult Contact) :
    DispatchOutcome :=
  let quotes := safeLoadQuotes quotesLoad
  let contacts := safeLoadContacts contactsLoad
  if quotes.isEmpty then
    .noQuotes
  else
    let q := quotes.getD (index % quotes.length) ⟨"", ""⟩
    let r := runContacts send q contacts
    .ran q r.1 r.2

/-- The rotating index of line 166: floor of epoch milliseconds over
1000*60*60*24, reduced mod the number of quotes. -/
def dayIndex (nowMs : Nat) (numQuotes : Nat) : Nat :=
  nowMs / (1000 * 60 * 60 * 24) % numQuotes

/-- Result of one scheduled cron callback (lines 160-171): skipped while
the ready flag is false, nothing to do when no quotes load, or a completed
dispatch at the computed day index. -/
inductive TickResult where
  | skippedNotReady
  | noQuotes
  | completed (index : Nat) (dispatch : DispatchOutcome)
deriving DecidableEq, Repr

/-- One scheduled tick (lines 160-171): gate on the ready flag, reload the
quotes, bail out when empty, else dispatch at dayIndex.  The two reads of
the quotes file within one tick are modelled as returning the same data. -/
def tick (ready : Bool) (send : String → SendResult) (nowMs : Nat)
    (quotesLoad : LoadResult Quote) (contactsLoad : LoadResult Contact) :
    TickResult :=
  if !ready then
    .skippedNotReady
  else
    let quotes := safeLoadQuotes quotesLoad
    if quotes.isEmpty then
      .noQuotes
    else
      let i := dayIndex nowMs quotes.length
      .completed i (sendQuoteToAll send i quotesLoad contactsLoad)

/-- Event trace of a dispatch result. -/
def dispatchEvents : DispatchOutcome → List Event
  | .noQuotes => []
  | .ran _ evs _ => evs

/-- Outcome list of a dispatch result. -/
def dispatchOutcomes : DispatchOutcome → List Outcome
  | .noQuotes => []
  | .ran _ _ os => os

/-- Event trace of a tick result. -/
def tickEvents : TickResult → List Event
  | .completed _ d => dispatchEvents d
  | _ => []

/-- A contact the loop actually sends to: phone present, nonempty, with at
least one digit. -/
def eligible (c : Contact) : Bool :=
  !phoneMissing c.phone && !(digitsOnly (c.phone.getD "") == "")

/-- The chatId of every sendAttempt event of a trace, in order. -/
def attemptTargets : List Event → List String
  | [] => []
  | .sendAttempt cid _ _ :: rest => cid :: attemptTargets rest
  | _ :: rest => attemptTargets rest

/-- The durations of the pause events of a trace. -/
def pauseDurations : List Event → List Nat
  | [] => []
  | .pause ms :: rest => ms :: pauseDurations rest
  | _ :: rest => pauseDurations rest

/-- The destination the loop builds on line 146 for a contact: its phone
digits followed by the chat suffix. -/
def chatIdOf (c : Contact) : String :=
  digitsOnly (c.phone.getD "") ++ "@c.us"

/-- A sequence of independent cron callbacks: each pair gives the ready
flag and the clock value observed at that tick.  node-cron fires the
callback anew at each trigger; no state is carried from tick to tick. -/
def runTicks (send : String → SendResult) (quotesLoad : LoadResult Quote)
    (contactsLoad : LoadResult Contact) : List (Bool × Nat) → List TickResult
  | [] => []
  | (r, t) :: rest =>
      tick r send t quotesLoad contactsLoad :: runTicks send quotesLoad contactsLoad rest

/-! ### Spec-side reference definitions for content selection

The spec prescribes selection by ordinal day-of-year in the configured
timezone; the following definitions formalise that prescription so it can
be compared with the dayIndex the code computes. -/

/-- Gregorian leap-year rule. -/
def isLeapYear (y : Nat) : Bool :=
  (y % 4 == 0 && y % 100 != 0) || (y % 400 == 0)

/-- Number of days of year y. -/
def daysInYear (y : Nat) : Nat :=
  if isLeapYear y then 366 else 365

/-- Walk whole years forward from year y, consuming n days; returns the
year reached and the one-based ordinal day within it.  The fuel argument
bounds the recursion and is always sufficient when it is at least n. -/
def ordinalDateAux : Nat → Nat → Nat → Nat × Nat
  | 0, y, n => (y, n + 1)
  | fuel + 1, y, n =>
      if n < daysInYear y then (y, n + 1)
      else ordinalDateAux fuel (y + 1) (n - daysInYear y)

/-- Modelled from the spec: the ordinal day-of-year (one-based) of the
civil date that lies n whole days after 1970-01-01. -/
def spec_dayOfYearOfEpochDay (n : Nat) : Nat :=
  (ordinalDateAux n 1970 n).2

/-- Modelled from the spec: day-of-year of an epoch-milliseconds instant
read in UTC. -/
def spec_dayOfYearUTC (nowMs : Nat) : Nat :=
  spec_dayOfYearOfEpochDay (nowMs / 86400000)

/-- Offset of the default configured timezone Asia/Kolkata: UTC+5:30 in
milliseconds. -/
def kolkataOffsetMs : Nat := 19800000

/-- Modelled from the spec: day-of-year of an epoch-milliseconds instant
read in the configured timezone Asia/Kolkata. -/
def spec_dayOfYearKolkata (nowMs : Nat) : Nat :=
  spec_dayOfYearOfEpochDay ((nowMs + kolkataOffsetMs) / 86400000)

/-! ### Spec-modelled subscriber store

The repository requires unsubscribe_handler.js optionally (lines 101-107)
but does not ship it; the store operations below are modelled from the
spec of the Subscriber Store (remove canonicalizes the identity, removes
the matching record, returns NotFound on no match). -/

/-- A contacts.json subscriber record as the spec describes it. -/
structure Subscriber where
  displayName : String
  identity : String
deriving DecidableEq, Repr

/-- Result of a remove operation on the subscriber store. -/
inductive RemoveOutcome where
  | removed (s : Subscriber)
  | notFound
deriving DecidableEq, Repr

/-- Modelled from the spec: find and take out the first record whose
canonical (digits-only) identity equals the given canonical identity. -/
def removeFirst (canonId : String) : List Subscriber → Option (Subscriber × List Subscriber)
  | [] => none
  | s :: rest =>
      if digitsOnly s.identity = canonId then
        some (s, rest)
      else
        match removeFirst canonId rest with
        | some (r, rest2) => some (r, s :: rest2)
        | none => none

/-- Modelled from the spec: remove(identity) canonicalizes the identity,
rewrites the store without the matched record and reports Removed, or
reports NotFound leaving the store unchanged, never throwing. -/
def removeSubscriber (id : String) (store : List Subscriber) :
    RemoveOutcome × List Subscriber :=
  match removeFirst (digitsOnly id) store with
  | some (s, rest) => (.removed s, rest)
  | none => (.notFound, store)

/-- The uniqueness invariant of the store: no two records share a
canonical identity. -/
def UniqueCanonical (store : List Subscriber) : Prop :=
  store.Pairwise (fun a b => digitsOnly a.identity ≠ digitsOnly b.identity)

/-! ### Helper lemmas about the send loop -/

theorem attemptTargets_append (l1 l2 : List Event) :
    attemptTargets (l1 ++ l2) = attemptTargets l1 ++ attemptTargets l2 := by
  induction l1 with
  | nil => rfl
  | cons e rest ih => cases e <;> simp [attemptTargets, ih]

theorem pauseDurations_append (l1 l2 : List Event) :
    pauseDurations (l1 ++ l2) = pauseDurations l1 ++ pauseDurations l2 := by
  induction l1 with
  | nil => rfl
  | cons e rest ih => cases e <;> simp [pauseDurations, ih]

theorem runContacts_append (send : String → SendResult) (q : Quote)
    (l1 l2 : List Contact) :
    runContacts send q (l1 ++ l2) =
      ((runContacts send q l1).1 ++ (runContacts send q l2).1,
       (runContacts send q l1).2 ++ (runContacts send q l2).2) := by
  induction l1 with
  | nil => simp [runContacts]
  | cons c rest ih => simp [runContacts, ih]

theorem processContact_targets (send : String → SendResult) (q : Quote) (c : Contact) :
    attemptTargets (processContact send q c).1 =
      if eligible c then [chatIdOf c] else [] := by
  unfold processContact eligible chatIdOf
  cases hm : phoneMissing c.phone with
  | true => simp [attemptTargets]
  | false =>
      simp only [Bool.not_false, Bool.true_and]
      cases hd : digitsOnly (c.phone.getD "") == "" with
      | true => simp [attemptTargets]
      | false =>
          cases send (digitsOnly (c.phone.getD "") ++ "@c.us") <;>
            simp [attemptTargets]

theorem processContact_no_pause (send : String → SendResult) (q : Quote) (c : Contact) :
    pauseDurations (processContact send q c).1 = [] := by
  unfold processContact
  cases hm : phoneMissing c.phone with
  | true => rfl
  | false =>
      simp only [Bool.false_eq_true, if_false]
      cases hd : digitsOnly (c.phone.getD "") == "" with
      | true => rfl
      | false =>
          cases send (digitsOnly (c.phone.getD "") ++ "@c.us") <;>
            simp [pauseDurations]

theorem processContact_outcome_isSome (send : String → SendResult) (q : Quote) (c : Contact) :
    (processContact send q c).2.isSome = eligible c := by
  unfold processContact eligible
  cases hm : phoneMissing c.phone with
  | true => rfl
  | false =>
      simp only [Bool.not_false, Bool.true_and]
      cases hd : digitsOnly (c.phone.getD "") == "" with
      | true => rfl
      | false =>
          cases send (digitsOnly (c.phone.getD "") ++ "@c.us") <;> rfl

theorem runContacts_targets (send : String → SendResult) (q : Quote)
    (contacts : List Contact) :
    attemptTargets (runContacts send q contacts).1 =
      (contacts.filter eligible).map chatIdOf := by
  induction contacts with
  | nil => rfl
  | cons c rest ih =>
      simp only [runContacts, attemptTargets_append, processContact_targets send q c,
        ih, List.filter_cons]
      cases he : eligible c <;> simp [he]

theorem runContacts_no_pause (send : String → SendResult) (q : Quote)
    (contacts : List Contact) :
    pauseDurations (runContacts send q contacts).1 = [] := by
  induction contacts with
  | nil => rfl
  | cons c rest ih =>
      simp only [runContacts, pauseDurations_append,
        processContact_no_pause send q c, ih, List.nil_append]

theorem runContacts_outcomes (send : String → SendResult) (q : Quote)
    (contacts : List Contact) :
    (runContacts send q contacts).2 =
      contacts.filterMap (fun c => (processContact send q c).2) := by
  induction contacts with
  | nil => rfl
  | cons c rest ih =>
      simp only [runContacts, List.filterMap_cons, ih]
      cases h : (processContact send q c).2 <;> simp [h]

theorem processContact_failure_events (send : String → SendResult) (q : Quote)
    (c : Contact) (cid reason : String)
    (h : (processContact send q c).2 = some (.failure cid reason)) :
    ∃ label, Event.logSendFailed label reason ∈ (processContact send q c).1 := by
  revert h
  unfold processContact
  cases hm : phoneMissing c.phone with
  | true => intro h; simp at h
  | false =>
      simp only [Bool.false_eq_true, if_false]
      cases hd : digitsOnly (c.phone.getD "") == "" with
      | true => intro h; simp at h
      | false =>
          cases hs : send (digitsOnly (c.phone.getD "") ++ "@c.us") with
          | ok => intro h; simp at h
          | error msg =>
              intro h
              simp only [Option.some_inj] at h
              cases h
              exact ⟨jsOr c.name (c.phone.getD ""), by simp⟩

/-! ### Claim theorems -/

/-- Claim C2: with an empty catalog, whether because the file is missing,
unparsable, not an array, or an empty array, loading yields the empty
collection, dispatch reports that there is no content to send (the
noQuotes result, never an index computation modulo zero), and a scheduled
tick likewise reports nothing to do instead of crashing. -/
theorem empty_catalog_nothing_to_do (ql : LoadResult Quote)
    (hbad : ql = .fileError ∨ ql = .parseError ∨ ql = .notArray ∨ ql = .array []) :
    safeLoadQuotes ql = [] ∧
    (∀ send index cl, sendQuoteToAll send index ql cl = .noQuotes) ∧
    (∀ send nowMs cl, tick true send nowMs ql cl = .noQuotes) := by
  have hempty : safeLoadQuotes ql = [] := by
    rcases hbad with h | h | h | h <;> subst h <;> rfl
  refine ⟨hempty, ?_, ?_⟩
  · intro send index cl
    simp [sendQuoteToAll, hempty]
  · intro send nowMs cl
    simp [tick, hempty]

/-- Witness for C2 at a missing catalog file. -/
theorem empty_catalog_nothing_to_do_witness :
    safeLoadQuotes .fileError = [] ∧
    sendQuoteToAll (fun _ => .ok) 3 .fileError (.array []) = .noQuotes ∧
    tick true (fun _ => .ok) 345600000 .fileError (.array []) = .noQuotes :=
  ⟨(empty_catalog_nothing_to_do .fileError (Or.inl rfl)).1,
   (empty_catalog_nothing_to_do .fileError (Or.inl rfl)).2.1 (fun _ => .ok) 3 (.array []),
   (empty_catalog_nothing_to_do .fileError (Or.inl rfl)).2.2 (fun _ => .ok) 345600000 (.array [])⟩

/-- Claim C7: a tick that observes a false ready flag returns the skip
result and performs no send attempt, and within a sequence of ticks the
skipped tick contributes exactly one skip result, leaving every later
tick exactly as it would have been: nothing is queued, retried, or
caught up. -/
theorem not_ready_tick_skipped :
    (∀ send nowMs ql cl, tick false send nowMs ql cl = .skippedNotReady) ∧
    (∀ send nowMs ql cl, attemptTargets (tickEvents (tick false send nowMs ql cl)) = []) ∧
    (∀ send ql cl t rest,
      runTicks send ql cl ((false, t) :: rest) =
        .skippedNotReady :: runTicks send ql cl rest) := by
  refine ⟨fun send nowMs ql cl => rfl, fun send nowMs ql cl => rfl,
    fun send ql cl t rest => rfl⟩

/-- Counterexample to claim C3: a recipient whose send fails with a
transient error message receives exactly one attempt; the run records the
failure immediately, with no second attempt and no backoff pause. -/
theorem single_attempt_cex :
    attemptTargets (dispatchEvents (sendQuoteToAll (fun _ => .error "timeout") 0
      (.array [⟨"A", "img"⟩]) (.array [⟨some "Bob", some "111"⟩]))) = ["111@c.us"] ∧
    pauseDurations (dispatchEvents (sendQuoteToAll (fun _ => .error "timeout") 0
      (.array [⟨"A", "img"⟩]) (.array [⟨some "Bob", some "111"⟩]))) = [] ∧
    dispatchOutcomes (sendQuoteToAll (fun _ => .error "timeout") 0
      (.array [⟨"A", "img"⟩]) (.array [⟨some "Bob", some "111"⟩])) =
      [.failure "111@c.us" "timeout"] := by
  decide

/-- Claim C3 as amended: every eligible recipient receives exactly one
delivery attempt per run, whatever the failure class, and no backoff pause
ever separates attempts. -/
theorem single_attempt_per_recipient (send : String → SendResult) (q : Quote)
    (contacts : List Contact) :
    attemptTargets (runContacts send q contacts).1 =
      (contacts.filter eligible).map chatIdOf ∧
    pauseDurations (runContacts send q contacts).1 = [] :=
  ⟨runContacts_targets send q contacts, runContacts_no_pause send q contacts⟩

/-- Counterexample to claim C4: two consecutive eligible recipients are
sent back to back and the full trace of the run contains no pause event
at all. -/
theorem no_pause_cex :
    attemptTargets (dispatchEvents (sendQuoteToAll (fun _ => .ok) 0
      (.array [⟨"A", "img"⟩])
      (.array [⟨some "Bob", some "111"⟩, ⟨some "Carol", some "222"⟩]))) =
      ["111@c.us", "222@c.us"] ∧
    pauseDurations (dispatchEvents (sendQuoteToAll (fun _ => .ok) 0
      (.array [⟨"A", "img"⟩])
      (.array [⟨some "Bob", some "111"⟩, ⟨some "Carol", some "222"⟩]))) = [] := by
  decide

/-- Claim C4 as amended: the send loop inserts no inter-send pause of any
duration between recipients; every run trace is free of pause events. -/
theorem no_inter_send_pause (send : String → SendResult) (q : Quote)
    (contacts : List Contact) :
    pauseDurations (runContacts send q contacts).1 = [] :=
  runContacts_no_pause send q contacts

/-- Claim C5: a delivery failure for the contact at any position never
aborts the run: the outcomes of all later contacts are exactly those the
loop computes for them, the failed contact contributes its recorded
failure in place, and the failure is logged in the run trace rather than
propagated. -/
theorem failure_does_not_abort (send : String → SendResult) (q : Quote)
    (pre post : List Contact) (c : Contact) (cid reason : String)
    (h : (processContact send q c).2 = some (.failure cid reason)) :
    (runContacts send q (pre ++ c :: post)).2 =
      (runContacts send q pre).2 ++
        .failure cid reason :: (runContacts send q post).2 ∧
    ∃ label, Event.logSendFailed label reason ∈ (runContacts send q (pre ++ c :: post)).1 := by
  have happ := runContacts_append send q pre (c :: post)
  constructor
  · rw [happ]
    simp [runContacts, h]
  · obtain ⟨label, hmem⟩ := processContact_failure_events send q c cid reason h
    refine ⟨label, ?_⟩
    rw [happ]
    simp only [List.mem_append]
    right
    simp only [runContacts, List.mem_append]
    left
    exact hmem

/-- Witness for C5: the first of two contacts fails with a network error;
the second still gets its outcome recorded, and the failure is logged. -/
theorem failure_does_not_abort_witness :
    (runContacts (fun cid => if cid = "111@c.us" then .error "net" else .ok)
        ⟨"A", "img"⟩ ([] ++ ⟨some "Bob", some "111"⟩ :: [⟨some "Carol", some "222"⟩])).2 =
      (runContacts (fun cid => if cid = "111@c.us" then .error "net" else .ok)
        ⟨"A", "img"⟩ []).2 ++
        .failure "111@c.us" "net" ::
          (runContacts (fun cid => if cid = "111@c.us" then .error "net" else .ok)
            ⟨"A", "img"⟩ [⟨some "Carol", some "222"⟩]).2 ∧
    ∃ label, Event.logSendFailed label "net" ∈
      (runContacts (fun cid => if cid = "111@c.us" then .error "net" else .ok)
        ⟨"A", "img"⟩ ([] ++ ⟨some "Bob", some "111"⟩ :: [⟨some "Carol", some "222"⟩])).1 :=
  failure_does_not_abort (fun cid => if cid = "111@c.us" then .error "net" else .ok)
    ⟨"A", "img"⟩ [] [⟨some "Carol", some "222"⟩] ⟨some "Bob", some "111"⟩
    "111@c.us" "net" (by decide)

/-- Counterexample to claim C6: a contact list of size three in which one
contact has no phone and one destination is duplicated yields only two
outcome entries, and the duplicated destination is attempted twice. -/
theorem outcome_count_cex :
    (dispatchOutcomes (sendQuoteToAll (fun _ => .ok) 0 (.array [⟨"A", "img"⟩])
      (.array [⟨some "a", none⟩, ⟨some "b", some "111"⟩, ⟨some "c", some "111"⟩]))).length = 2 ∧
    (safeLoadContacts
      (.array [⟨some "a", none⟩, ⟨some "b", some "111"⟩, ⟨some "c", some "111"⟩])).length = 3 ∧
    (dispatchOutcomes (sendQuoteToAll (fun _ => .ok) 0 (.array [⟨"A", "img"⟩])
      (.array [⟨some "a", none⟩, ⟨some "b", some "111"⟩, ⟨some "c", some "111"⟩]))).length ≠
      (safeLoadContacts
        (.array [⟨some "a", none⟩, ⟨some "b", some "111"⟩, ⟨some "c", some "111"⟩])).length ∧
    dispatchOutcomes (sendQuoteToAll (fun _ => .ok) 0 (.array [⟨"A", "img"⟩])
      (.array [⟨some "a", none⟩, ⟨some "b", some "111"⟩, ⟨some "c", some "111"⟩])) =
      [.success "111@c.us", .success "111@c.us"] := by
  decide

/-- Claim C6 as amended: a completed run records exactly one outcome, each
tagged success or failure by construction, for each occurrence of a
contact with a usable phone, in listed order; contacts without a usable
phone get no entry, and a contact listed twice is attempted once per
occurrence. -/
theorem outcomes_cover_eligible (send : String → SendResult) (q : Quote)
    (contacts : List Contact) :
    (runContacts send q contacts).2 =
      contacts.filterMap (fun c => (processContact send q c).2) ∧
    (runContacts send q contacts).2.length = (contacts.filter eligible).length ∧
    attemptTargets (runContacts send q contacts).1 =
      (contacts.filter eligible).map chatIdOf := by
  refine ⟨runContacts_outcomes send q contacts, ?_, ?_⟩
  · rw [runContacts_outcomes send q contacts]
    induction contacts with
    | nil => rfl
    | cons c rest ih =>
        simp only [List.filterMap_cons, List.filter_cons]
        have hsome := processContact_outcome_isSome send q c
        cases h : (processContact send q c).2 with
        | none =>
            have : eligible c = false := by
              rw [← hsome, h]; rfl
            simp [this, ih]
        | some o =>
            have : eligible c = true := by
              rw [← hsome, h]; rfl
            simp [this, ih]
  · exact runContacts_targets send q contacts

/-- Claim C9: for a contact whose phone string contains at least one
digit, the one send attempt of its loop iteration targets exactly the
digits of the phone string followed by the chat suffix. -/
theorem normalized_destination (send : String → SendResult) (q : Quote)
    (name : Option String) (p : String) (h : digitsOnly p ≠ "") :
    attemptTargets (processContact send q ⟨name, some p⟩).1 =
      [digitsOnly p ++ "@c.us"] := by
  have hp : p ≠ "" := by
    intro hcontra
    exact h (by rw [hcontra]; rfl)
  have he : eligible ⟨name, some p⟩ = true := by
    simp [eligible, phoneMissing, hp, h]
  rw [processContact_targets send q ⟨name, some p⟩, he]
  simp [chatIdOf]

/-- Witness for C9 at a formatted phone number. -/
theorem normalized_destination_witness :
    attemptTargets (processContact (fun _ => .ok) ⟨"A", "img"⟩
      ⟨some "Dana", some "+1 (555) 0100"⟩).1 = [digitsOnly "+1 (555) 0100" ++ "@c.us"] :=
  normalized_destination (fun _ => .ok) ⟨"A", "img"⟩ (some "Dana") "+1 (555) 0100"
    (by decide)

/-- Claim C10: a contact with a missing or empty phone, or one whose
phone has no digit characters, is skipped: its iteration makes no send
attempt and records no outcome, and the run over any surrounding list is
the run over the other contacts. -/
theorem invalid_contact_skipped (send : String → SendResult) (q : Quote)
    (c : Contact) (pre post : List Contact)
    (h : phoneMissing c.phone = true ∨ digitsOnly (c.phone.getD "") = "") :
    (processContact send q c).2 = none ∧
    attemptTargets (processContact send q c).1 = [] ∧
    (runContacts send q (pre ++ c :: post)).2 =
      (runContacts send q pre).2 ++ (runContacts send q post).2 := by
  have he : eligible c = false := by
    rcases h with h | h <;> simp [eligible, h]
  have hnone : (processContact send q c).2 = none := by
    have := processContact_outcome_isSome send q c
    rw [he] at this
    exact Option.not_isSome_iff_eq_none.mp (by rw [this]; exact Bool.false_ne_true)
  refine ⟨hnone, ?_, ?_⟩
  · rw [processContact_targets send q c, he]
    rfl
  · rw [runContacts_append send q pre (c :: post)]
    simp [runContacts, hnone]

/-- Witness for C10: one phoneless contact and one digitless contact
between two valid ones leave only the valid outcomes. -/
theorem invalid_contact_skipped_witness :
    (processContact (fun _ => .ok) ⟨"A", "img"⟩ ⟨some "NoPhone", none⟩).2 = none ∧
    attemptTargets (processContact (fun _ => .ok) ⟨"A", "img"⟩ ⟨some "NoPhone", none⟩).1 = [] ∧
    (runContacts (fun _ => .ok) ⟨"A", "img"⟩
        ([⟨some "Bob", some "111"⟩] ++ ⟨some "NoPhone", none⟩ :: [⟨some "Carol", some "222"⟩])).2 =
      (runContacts (fun _ => .ok) ⟨"A", "img"⟩ [⟨some "Bob", some "111"⟩]).2 ++
        (runContacts (fun _ => .ok) ⟨"A", "img"⟩ [⟨some "Carol", some "222"⟩]).2 :=
  invalid_contact_skipped (fun _ => .ok) ⟨"A", "img"⟩ ⟨some "NoPhone", none⟩
    [⟨some "Bob", some "111"⟩] [⟨some "Carol", some "222"⟩] (Or.inl rfl)

/-- Counterexample to claim C1: at epoch instant 345600000 ms, which is
1970-01-05 00:00 UTC and 1970-01-05 05:30 in the configured timezone
Asia/Kolkata, so ordinal day-of-year 5 under either reading, a catalog of
length 7 gets index 4 from the code (epoch days mod length), not the
day-of-year index 5 mod 7 = 5 the claim prescribes. -/
theorem day_index_not_day_of_year :
    dayIndex 345600000 7 = 4 ∧
    spec_dayOfYearUTC 345600000 = 5 ∧
    spec_dayOfYearKolkata 345600000 = 5 ∧
    dayIndex 345600000 7 ≠ spec_dayOfYearKolkata 345600000 % 7 ∧
    dayIndex 345600000 7 ≠ spec_dayOfYearUTC 345600000 % 7 := by
  decide

/-- Claim C1 as amended: on a ready tick with a nonempty catalog of
length L, the selected index is floor(epoch milliseconds / 86400000) mod
L, computed from the ambient epoch clock with no timezone adjustment; the
index is in range, and the tick result is a pure function of the observed
clock value and loaded data, with no hidden cursor. -/
theorem scheduler_day_index (send : String → SendResult) (nowMs : Nat)
    (ql : LoadResult Quote) (cl : LoadResult Contact)
    (h : safeLoadQuotes ql ≠ []) :
    tick true send nowMs ql cl =
      .completed (dayIndex nowMs (safeLoadQuotes ql).length)
        (sendQuoteToAll send (dayIndex nowMs (safeLoadQuotes ql).length) ql cl) ∧
    dayIndex nowMs (safeLoadQuotes ql).length =
      nowMs / 86400000 % (safeLoadQuotes ql).length ∧
    dayIndex nowMs (safeLoadQuotes ql).length < (safeLoadQuotes ql).length := by
  have hlen : 0 < (safeLoadQuotes ql).length := List.length_pos.mpr h
  have hne : (safeLoadQuotes ql).isEmpty = false := by
    cases hq : safeLoadQuotes ql with
    | nil => exact absurd hq h
    | cons a l => rfl
  refine ⟨?_, rfl, Nat.mod_lt _ hlen⟩
  simp [tick, hne]

/-- Witness for C1 as amended, at the instant of the counterexample with
a two-quote catalog: epoch day 4 mod 2 selects index 0. -/
theorem scheduler_day_index_witness :
    tick true (fun _ => .ok) 345600000 (.array [⟨"A", "i1"⟩, ⟨"B", "i2"⟩]) (.array []) =
      .completed (dayIndex 345600000 (safeLoadQuotes (.array [⟨"A", "i1"⟩, ⟨"B", "i2"⟩])).length)
        (sendQuoteToAll (fun _ => .ok)
          (dayIndex 345600000 (safeLoadQuotes (.array [⟨"A", "i1"⟩, ⟨"B", "i2"⟩])).length)
          (.array [⟨"A", "i1"⟩, ⟨"B", "i2"⟩]) (.array [])) ∧
    dayIndex 345600000 (safeLoadQuotes (.array [⟨"A", "i1"⟩, ⟨"B", "i2"⟩])).length =
      345600000 / 86400000 % (safeLoadQuotes (.array [⟨"A", "i1"⟩, ⟨"B", "i2"⟩])).length ∧
    dayIndex 345600000 (safeLoadQuotes (.array [⟨"A", "i1"⟩, ⟨"B", "i2"⟩])).length <
      (safeLoadQuotes (.array [⟨"A", "i1"⟩, ⟨"B", "i2"⟩])).length :=
  scheduler_day_index (fun _ => .ok) 345600000 (.array [⟨"A", "i1"⟩, ⟨"B", "i2"⟩])
    (.array []) (by decide)

/-! ### Lemmas about the spec-modelled subscriber store -/

theorem removeFirst_eq_none (canonId : String) (l : List Subscriber) :
    removeFirst canonId l = none ↔ ∀ s ∈ l, digitsOnly s.identity ≠ canonId := by
  induction l with
  | nil => simp [removeFirst]
  | cons s rest ih =>
      constructor
      · intro h t ht
        by_cases hs : digitsOnly s.identity = canonId
        · simp [removeFirst, hs] at h
        · rcases List.mem_cons.mp ht with rfl | ht2
          · exact hs
          · refine ih.mp ?_ t ht2
            by_cases hr : (removeFirst canonId rest).isSome
            · obtain ⟨⟨r, rest2⟩, hr2⟩ := Option.isSome_iff_exists.mp hr
              simp [removeFirst, hs, hr2] at h
            · exact Option.not_isSome_iff_eq_none.mp hr
      · intro h
        have hs : ¬ digitsOnly s.identity = canonId := h s (List.mem_cons_self s rest)
        have hr : removeFirst canonId rest = none :=
          ih.mpr fun t ht => h t (List.mem_cons_of_mem s ht)
        simp [removeFirst, hs, hr]

theorem removeFirst_some (canonId : String) (l : List Subscriber)
    (s : Subscriber) (rest : List Subscriber)
    (h : removeFirst canonId l = some (s, rest)) :
    digitsOnly s.identity = canonId ∧ rest.length + 1 = l.length := by
  induction l generalizing s rest with
  | nil => simp [removeFirst] at h
  | cons a l ih =>
      by_cases ha : digitsOnly a.identity = canonId
      · simp only [removeFirst, if_pos ha, Option.some_inj, Prod.mk.injEq] at h
        obtain ⟨rfl, rfl⟩ := h
        exact ⟨ha, rfl⟩
      · cases hr : removeFirst canonId l with
        | none => simp [removeFirst, ha, hr] at h
        | some pr =>
            obtain ⟨r, rest2⟩ := pr
            simp only [removeFirst, if_neg ha, hr, Option.some_inj, Prod.mk.injEq] at h
            obtain ⟨rfl, rfl⟩ := h
            obtain ⟨h1, h2⟩ := ih r rest2 hr
            exact ⟨h1, by simpa using congrArg Nat.succ h2⟩

theorem removeFirst_rest_no_match (canonId : String) (l : List Subscriber)
    (hpw : l.Pairwise fun a b => digitsOnly a.identity ≠ digitsOnly b.identity)
    (s : Subscriber) (rest : List Subscriber)
    (h : removeFirst canonId l = some (s, rest)) :
    ∀ t ∈ rest, digitsOnly t.identity ≠ canonId := by
  induction l generalizing s rest with
  | nil => simp [removeFirst] at h
  | cons a l ih =>
      obtain ⟨haAll, hl⟩ := List.pairwise_cons.mp hpw
      by_cases ha : digitsOnly a.identity = canonId
      · simp only [removeFirst, if_pos ha, Option.some_inj, Prod.mk.injEq] at h
        obtain ⟨rfl, rfl⟩ := h
        intro t ht hc
        exact haAll t ht (ha.trans hc.symm)
      · cases hr : removeFirst canonId l with
        | none => simp [removeFirst, ha, hr] at h
        | some pr =>
            obtain ⟨r, rest2⟩ := pr
            simp only [removeFirst, if_neg ha, hr, Option.some_inj, Prod.mk.injEq] at h
            obtain ⟨rfl, rfl⟩ := h
            intro t ht
            rcases List.mem_cons.mp ht with rfl | ht2
            · exact ha
            · exact ih hl r rest2 hr t ht2

/-- Claim C8, against the spec-modelled store: removing an identity that
the store holds (under its uniqueness invariant) yields Removed with one
record fewer; removing it again from the resulting store yields NotFound
and leaves the store untouched, so the count is decremented exactly once
and repeated removals stay on the NotFound branch. -/
theorem unsubscribe_idempotent (store : List Subscriber) (id : String)
    (huniq : UniqueCanonical store)
    (hmem : ∃ s ∈ store, digitsOnly s.identity = digitsOnly id) :
    (∃ s, (removeSubscriber id store).1 = .removed s) ∧
    removeSubscriber id (removeSubscriber id store).2 =
      (.notFound, (removeSubscriber id store).2) ∧
    (removeSubscriber id store).2.length + 1 = store.length := by
  obtain ⟨s0, hs0, hmatch⟩ := hmem
  cases hr : removeFirst (digitsOnly id) store with
  | none =>
      exact absurd hmatch ((removeFirst_eq_none (digitsOnly id) store).mp hr s0 hs0)
  | some pr =>
      obtain ⟨s, rest⟩ := pr
      have hlen := (removeFirst_some (digitsOnly id) store s rest hr).2
      have hrestNone : removeFirst (digitsOnly id) rest = none :=
        (removeFirst_eq_none (digitsOnly id) rest).mpr
          (removeFirst_rest_no_match (digitsOnly id) store huniq s rest hr)
      refine ⟨⟨s, ?_⟩, ?_, ?_⟩
      · simp [removeSubscriber, hr]
      · simp [removeSubscriber, hr, hrestNone]
      · simpa [removeSubscriber, hr] using hlen

/-- Witness for C8 at the identity the spec names, stored once. -/
theorem unsubscribe_idempotent_witness :
    (∃ s, (removeSubscriber "+1-555-0100" [⟨"Alice", "+1-555-0100"⟩]).1 = .removed s) ∧
    removeSubscriber "+1-555-0100"
        (removeSubscriber "+1-555-0100" [⟨"Alice", "+1-555-0100"⟩]).2 =
      (.notFound, (removeSubscriber "+1-555-0100" [⟨"Alice", "+1-555-0100"⟩]).2) ∧
    (removeSubscriber "+1-555-0100" [⟨"Alice", "+1-555-0100"⟩]).2.length + 1 =
      ([⟨"Alice", "+1-555-0100"⟩] : List Subscriber).length :=
  unsubscribe_idempotent [⟨"Alice", "+1-555-0100"⟩] "+1-555-0100"
    (List.pairwise_singleton _ _)
    ⟨⟨"Alice", "+1-555-0100"⟩, List.mem_singleton.mpr rfl, rfl⟩

end Autopilot
